import Mathlib

/-!
Verification development for the session-intel repository.

The definitions below are a shallow embedding of the core pipeline:
* `src/src/adapters/claude_code.py` — pattern library, message classifier,
  session aggregation (`process_session`) and the store write path (`ingest`);
* `src/src/strategies/extract.py` — the four signal extractors A-D.

Python regular expressions are embedded as an explicit abstract syntax
(`Rx`) together with a backtracking matcher that mirrors `re.search`
(leftmost position, left-biased alternation, greedy repetition) and
`re.findall` counting (non-overlapping, resume at match end).  Machine
reals appearing in `compute_struggle_score` use only the dyadic weights
0.25 and 0.5 on small integer counters, where Python float arithmetic is
exact, so scores are modelled as `Rat`.  The SQLite store is modelled as
lists of rows; `ORDER BY` is modelled by insertion sort.
-/

set_option maxRecDepth 40000

namespace SessionIntel

/-! ## Insertion sort, modelling SQL ORDER BY -/

/-- Insert `a` into `l` before the first element `b` with `le a b`. -/
def insertOrd {α : Type} (le : α → α → Bool) (a : α) : List α → List α
  | [] => [a]
  | b :: bs => if le a b then a :: b :: bs else b :: insertOrd le a bs

/-- Insertion sort by the boolean relation `le` (used to model `ORDER BY`). -/
def sortOrd {α : Type} (le : α → α → Bool) (l : List α) : List α :=
  l.foldr (insertOrd le) []

/-! ## Regular expressions

`Rx` covers exactly the fragment the pattern library uses: literal
characters, character classes, `.`, concatenation, alternation `(x|y)`,
`*`, `?`, the `^` anchor and the `\b` word boundary. -/

/-- Characters matched by Python's regex class `\s` (ASCII range). -/
def wsChar (c : Char) : Bool :=
  c = ' ' || c = '\t' || c = '\n' || c = '\r' || c = '\x0b' || c = '\x0c'

/-- Characters Python's `\w` class and `\b` boundary treat as word characters (ASCII range). -/
def wordChar (c : Char) : Bool :=
  ('a' ≤ c && c ≤ 'z') || ('A' ≤ c && c ≤ 'Z') || ('0' ≤ c && c ≤ '9') || c = '_'

/-- Abstract syntax of the regular-expression fragment used by the pattern library. -/
inductive Rx where
  | eps : Rx
  | ch : Char → Rx
  | cls : (Char → Bool) → Rx
  | dot : Rx
  | seq : Rx → Rx → Rx
  | alt : Rx → Rx → Rx
  | star : Rx → Rx
  | opt : Rx → Rx
  | bos : Rx
  | wb : Rx

/-- Syntactic size of a pattern, used only to compute an adequate fuel bound. -/
def Rx.size : Rx → Nat
  | eps => 1
  | ch _ => 1
  | cls _ => 1
  | dot => 1
  | bos => 1
  | wb => 1
  | seq a b => a.size + b.size + 1
  | alt a b => a.size + b.size + 1
  | star a => a.size + 1
  | opt a => a.size + 1

/-- Backtracking matcher in continuation-passing style, mirroring CPython's
`re` engine: alternation prefers the left branch, `*` and `?` are greedy
(consume first, fall back to empty), `^` matches only at the start of the
text and `\b` compares word-ness of the previous character and the next
one.  `p` is the character immediately before the current position (`none`
at the start of the text).  On success the continuation receives the
position after the match and the final result carries the previous
character and the remaining text there.  The fuel argument only bounds
recursion depth; `rxFuel` below always exceeds the depth the engine can
reach on the patterns of this repository (whose starred subterms all
consume at least one character per iteration). -/
def matchRem : Nat → Rx → Option Char → List Char →
    (Option Char → List Char → Option (Option Char × List Char)) →
    Option (Option Char × List Char)
  | 0, _, _, _, _ => none
  | _ + 1, Rx.eps, p, s, k => k p s
  | _ + 1, Rx.ch c, _, s, k =>
    match s with
    | [] => none
    | x :: xs => if x = c then k (some x) xs else none
  | _ + 1, Rx.cls f, _, s, k =>
    match s with
    | [] => none
    | x :: xs => if f x then k (some x) xs else none
  | _ + 1, Rx.dot, _, s, k =>
    match s with
    | [] => none
    | x :: xs => if x = '\n' then none else k (some x) xs
  | n + 1, Rx.seq a b, p, s, k => matchRem n a p s (fun p2 s2 => matchRem n b p2 s2 k)
  | n + 1, Rx.alt a b, p, s, k =>
    (matchRem n a p s k).orElse (fun _ => matchRem n b p s k)
  | n + 1, Rx.star a, p, s, k =>
    (matchRem n a p s (fun p2 s2 => matchRem n (Rx.star a) p2 s2 k)).orElse (fun _ => k p s)
  | n + 1, Rx.opt a, p, s, k => (matchRem n a p s k).orElse (fun _ => k p s)
  | _ + 1, Rx.bos, p, s, k => if p.isNone then k p s else none
  | _ + 1, Rx.wb, p, s, k =>
    if (match p with | some c => wordChar c | none => false)
        ≠ (match s with | x :: _ => wordChar x | [] => false)
    then k p s else none

/-- Fuel that strictly dominates the recursion depth of `matchRem` on the
patterns of this file (each starred subterm consumes a character per
iteration, so depth is linear in pattern size plus text length). -/
def rxFuel (r : Rx) (s : List Char) : Nat :=
  (r.size + 2) * (s.length + 2) + s.length + 8

/-- Try a match at the current position; `p` is the preceding character. -/
def matchHere (r : Rx) (p : Option Char) (s : List Char) : Option (Option Char × List Char) :=
  matchRem (rxFuel r s) r p s (fun p2 s2 => some (p2, s2))

/-- Model of re.search: try each start position from the left. -/
def searchFrom (r : Rx) : Option Char → List Char → Bool
  | p, [] => (matchHere r p []).isSome
  | p, x :: xs => (matchHere r p (x :: xs)).isSome || searchFrom r (some x) xs

/-- Whether `re.search(r, text)` finds a match. -/
def rsearch (r : Rx) (text : List Char) : Bool :=
  searchFrom r none text

/-- Counting loop of `len(re.findall(r, text))`: find the leftmost match from the
current position, count it, resume after its end (one position further on an
empty match).  The fuel is the number of remaining scan steps, at most
`text.length + 1`. -/
def countFrom (r : Rx) : Nat → Option Char → List Char → Nat
  | 0, _, _ => 0
  | fuel + 1, p, s =>
    match matchHere r p s with
    | some (p2, s2) =>
      if s2.length < s.length then 1 + countFrom r fuel p2 s2
      else
        match s with
        | [] => 1
        | x :: xs => 1 + countFrom r fuel (some x) xs
    | none =>
      match s with
      | [] => 0
      | x :: xs => countFrom r fuel (some x) xs

/-- Number of matches `re.findall(r, text)` returns. -/
def countMatches (r : Rx) (text : List Char) : Nat :=
  countFrom r (text.length + 1) none text

/-! Pattern-building helpers. -/

/-- Literal string pattern, one `Rx.ch` per character. -/
def lit (w : String) : Rx := w.data.foldr (fun c r => Rx.seq (Rx.ch c) r) Rx.eps

/-- Concatenation of a list of patterns. -/
def cat (rs : List Rx) : Rx := rs.foldr Rx.seq Rx.eps

/-- Alternation group `(a|b|...)`. -/
def alts : List Rx → Rx
  | [] => Rx.eps
  | [r] => r
  | r :: rs => Rx.alt r (alts rs)

/-- Plus: `r+` as `r r*`. -/
def plus (r : Rx) : Rx := Rx.seq r (Rx.star r)

/-- Word-character star `\w*`. -/
def wstar : Rx := Rx.star (Rx.cls wordChar)

/-- Word-character plus `\w+`. -/
def wplus : Rx := plus (Rx.cls wordChar)

/-- Word-bounded literal `\bword\b`. -/
def bnd (w : String) : Rx := cat [Rx.wb, lit w, Rx.wb]

/-! ## Pattern library (claude_code.py lines 18-149 and 221-279)

`check_patterns` lowercases the text and searches the raw patterns, so the
capital letters appearing inside some evidence patterns are kept verbatim
here (they can never match the lowercased text, exactly as in the source).
`detect_intent` passes `re.IGNORECASE`, which over already-lowercased text
is equivalent to lowercasing the pattern literals, so the two `CLAUDE\.MD`
/ `CLAUDE\.md` entries below both read `claude\.md`. -/

def ERROR_PATTERNS : List Rx := [
  cat [lit "error", Rx.cls (fun c => c = ':' || wsChar c)],
  lit "failed",
  lit "failure",
  lit "not found",
  lit "doesn\x27t exist",
  lit "invalid",
  cat [lit "cannot", Rx.wb],
  lit "unable to"]

def RETRY_PATTERNS : List Rx := [
  lit "let me try",
  lit "let me check",
  lit "let me fix",
  lit "let me look",
  lit "that didn\x27t work",
  lit "try a different",
  lit "try another",
  cat [lit "instead", Rx.opt (Rx.ch ','), plus (Rx.cls wsChar), alts [lit "let", lit "I\x27ll"]],
  cat [lit "actually", Rx.opt (Rx.ch ','), plus (Rx.cls wsChar), alts [lit "the", lit "let", lit "I"]],
  lit "the issue is",
  lit "the problem is",
  lit "I see the issue"]

def CORRECTION_PATTERNS : List Rx := [
  cat [Rx.bos, lit "no", Rx.cls (fun c => c = ',' || c = '.' || wsChar c)],
  cat [Rx.bos, lit "wrong"],
  cat [Rx.bos, lit "that\x27s wrong"],
  cat [Rx.bos, lit "actually", Rx.cls (fun c => c = ',' || wsChar c)],
  lit "you can\x27t",
  lit "that\x27s not",
  lit "that won\x27t work",
  lit "that doesn\x27t",
  lit "not what I",
  cat [lit "I said", Rx.wb],
  cat [lit "I meant", Rx.wb]]

def DISCOVERY_PATTERNS : List Rx := [
  cat [lit "I see", Rx.cls (fun c => wsChar c || c = '!')],
  lit "I found",
  cat [lit "the ", alts [lit "issue", lit "problem", lit "root cause", lit "reason"],
       lit " ", alts [lit "is", lit "was"]],
  lit "now I understand",
  lit "that\x27s because",
  lit "the fix is",
  lit "resolved",
  lit "working now",
  lit "successfully"]

/-- INTENT_PATTERNS: label to pattern list, in the dict's insertion order. -/
def INTENT_PATTERNS : List (String × List Rx) := [
  ("execution", [
    lit "implement",
    bnd "build",
    bnd "deploy",
    bnd "fix",
    bnd "create",
    bnd "update",
    bnd "add",
    bnd "modify",
    bnd "refactor",
    bnd "migrate",
    lit "resume work",
    cat [lit "continue", Rx.star Rx.dot, lit "work"],
    cat [lit "executing", Rx.opt Rx.dot, lit "plan"],
    cat [lit "execute", Rx.opt Rx.dot, lit "plan"],
    cat [lit "subagent", Rx.dot, lit "driven"],
    lit "<command-message>fix</command-message>"]),
  ("planning", [
    bnd "plan",
    lit "brainstorm",
    lit "discuss",
    lit "what if",
    lit "how should",
    lit "let\x27s think",
    lit "strategy",
    lit "approach",
    cat [lit "writing", Rx.opt Rx.dot, lit "plan"],
    lit "<command-message>superpowers:brainstorm",
    lit "<command-message>superpowers:writing"]),
  ("debug", [
    lit "not working",
    lit "broken",
    lit "failing",
    bnd "error",
    lit "bug",
    lit "crash",
    lit "stuck",
    lit "still failing",
    cat [lit "why ", alts [lit "is", lit "does", lit "isn"]],
    lit "<command-message>fix"]),
  ("config", [
    bnd "connect",
    bnd "install",
    bnd "configure",
    cat [lit "set", Rx.opt Rx.dot, lit "up"],
    cat [lit "api", Rx.opt Rx.dot, lit "key"],
    lit "auth",
    lit "credential",
    lit "mcp",
    cat [Rx.ch '.', lit "env", Rx.wb],
    lit "salesforce-connect"]),
  ("research", [
    lit "research",
    lit "figure out",
    lit "how does",
    lit "what is",
    lit "investigate",
    lit "explore",
    lit "look into",
    lit "can we use",
    lit "understand"]),
  ("review", [
    bnd "review",
    lit "look at",
    cat [lit "check", Rx.star Rx.dot, lit "status"],
    cat [lit "what", Rx.star Rx.dot, alts [lit "state", lit "progress"]],
    cat [lit "where", Rx.star Rx.dot, lit "left off"],
    lit "audit",
    lit "claude.md",
    lit "claude.md"])]

/-- DOMAIN_PATTERNS: label to pattern list, in the dict's insertion order. -/
def DOMAIN_PATTERNS : List (String × List Rx) := [
  ("ui/design", [
    bnd "component", bnd "page", bnd "css", bnd "layout", bnd "flexipage",
    bnd "lwc", bnd "react", bnd "html", bnd "modal", bnd "button",
    bnd "style", bnd "theme", bnd "render", bnd "frontend", bnd "ui",
    bnd "tailwind", bnd "design", bnd "responsive", bnd "navigation",
    bnd "sidebar", bnd "header", bnd "tab", bnd "card", bnd "icon",
    bnd "color", bnd "font", bnd "grid", bnd "flex", bnd "padding",
    bnd "margin", bnd "width", bnd "height", bnd "tsx", bnd "jsx",
    bnd "vite", bnd "hmr", bnd "screenshot", bnd "visual"]),
  ("data", [
    bnd "soql", bnd "sql", bnd "database",
    cat [Rx.wb, lit "migrat", wstar, Rx.wb], bnd "schema",
    bnd "record", bnd "query", cat [Rx.ch '.', lit "db", Rx.wb], bnd "dml", bnd "table",
    bnd "column", bnd "field", bnd "sqlite", bnd "insert", bnd "select",
    bnd "join", bnd "index", bnd "crud",
    cat [Rx.wb, lit "data", Rx.opt (Rx.cls wsChar), lit "source", Rx.wb],
    bnd "sync", bnd "ingest", bnd "etl", bnd "json", bnd "csv",
    bnd "parse", bnd "scrape", bnd "fetch"]),
  ("workflow/automation", [
    bnd "flow", bnd "trigger", bnd "process",
    cat [Rx.wb, lit "automati", wstar, Rx.wb],
    bnd "cron", cat [Rx.wb, lit "schedul", wstar, Rx.wb],
    cat [Rx.wb, lit "email", Rx.opt (Rx.cls wsChar), lit "trigger", Rx.wb],
    bnd "workflow",
    bnd "rule", bnd "action", bnd "prompt",
    cat [Rx.wb, lit "screen", Rx.opt (Rx.cls wsChar), lit "flow", Rx.wb],
    cat [Rx.wb, lit "record", Rx.opt Rx.dot, lit "trigger", Rx.wb],
    bnd "validation", bnd "approval",
    cat [Rx.wb, lit "notif", wstar, Rx.wb], bnd "alert", bnd "hook", bnd "webhook"]),
  ("architecture", [
    bnd "refactor", bnd "module", bnd "pattern", bnd "structure",
    bnd "directory", bnd "extract", cat [Rx.wb, lit "abstract", wstar, Rx.wb],
    cat [Rx.wb, lit "organiz", wstar, Rx.wb],
    cat [Rx.wb, lit "architect", wstar, Rx.wb],
    cat [Rx.wb, lit "separati", wstar, Rx.wb], bnd "decouple", bnd "layer",
    bnd "plugin", bnd "system", bnd "framework", bnd "pattern"]),
  ("api", [
    bnd "endpoint", bnd "api", bnd "rest", bnd "route", bnd "request",
    bnd "response", bnd "integration", bnd "http", bnd "fetch",
    bnd "post", bnd "get", bnd "put", bnd "websocket", bnd "oauth",
    bnd "token", cat [Rx.wb, lit "auth", wstar, Rx.wb]]),
  ("infra/deploy", [
    bnd "deploy", bnd "ci", bnd "build", bnd "package", bnd "manifest",
    bnd "sandbox", bnd "production", bnd "git", bnd "branch",
    bnd "merge", bnd "commit", bnd "release", bnd "pipeline",
    bnd "docker", bnd "server", bnd "host", bnd "install"]),
  ("config/auth", [
    bnd "oauth", bnd "token", cat [Rx.wb, lit "api", Rx.opt Rx.dot, lit "key", Rx.wb],
    bnd "credential",
    bnd "mcp", bnd "env", bnd "settings", cat [Rx.wb, lit "config", wstar, Rx.wb],
    bnd "onboard", bnd "setup", bnd "permission", bnd "access"]),
  ("metadata", [
    cat [Rx.wb, lit "descri", wplus, Rx.wb], bnd "label",
    cat [Rx.wb, lit "help", Rx.opt Rx.dot, lit "text", Rx.wb], bnd "enrich",
    bnd "document", cat [Rx.wb, lit "annotat", wstar, Rx.wb],
    cat [Rx.wb, lit "object", Rx.opt Rx.dot, lit "manager", Rx.wb]]),
  ("test/qa", [
    bnd "test", bnd "coverage", bnd "assert", cat [Rx.wb, lit "validat", wstar, Rx.wb],
    cat [Rx.wb, lit "verif", wstar, Rx.wb], bnd "qa", bnd "regression", bnd "sanity",
    cat [Rx.wb, lit "apex", Rx.opt (Rx.cls wsChar), lit "test", Rx.wb],
    cat [Rx.wb, lit "edge", Rx.opt (Rx.cls wsChar), lit "case", Rx.wb]])]

/-- check_patterns (claude_code.py lines 318-323): lowercase the text and
return whether any pattern in the group matches. -/
def check_patterns (text : String) (patterns : List Rx) : Bool :=
  let text_lower := text.data.map Char.toLower
  patterns.any (fun p => rsearch p text_lower)

/-! ## Intent and domain detection (claude_code.py lines 152-189 and 282-298) -/

/-- Python `str.strip()` over the ASCII whitespace the texts contain. -/
def pyStrip (s : List Char) : List Char :=
  ((s.dropWhile wsChar).reverse.dropWhile wsChar).reverse

/-- Python's substring containment `needle in hay`. -/
def containsSub (needle : List Char) : List Char → Bool
  | [] => needle.isEmpty
  | c :: cs => needle.isPrefixOf (c :: cs) || containsSub needle cs

/-- The lowercased, stripped first message `detect_intent` operates on. -/
def normText (first_message : String) : List Char :=
  pyStrip (first_message.data.map Char.toLower)

/-- The special-cased literal/prefix routes of detect_intent (lines 159-173),
in source order; `none` when the first message falls through to scoring. -/
def detect_special (text : List Char) : Option String :=
  if text == "warmup".data || text == "say hello".data || text == "tui".data
      || text == "think high".data then some "startup"
  else if "# soul".data.isPrefixOf text then some "startup"
  else if "<command-name>/clear".data.isPrefixOf text then some "continuation"
  else if "<command-message>resume".data.isPrefixOf text then some "execution"
  else if "<command-message>tickets".data.isPrefixOf text then some "review"
  else if "<command-message>plugin".data.isPrefixOf text then some "config"
  else if containsSub "read the latest session".data text
      || containsSub "read the latest_session".data text then some "startup"
  else none

/-- The per-intent presence scores (lines 176-183): one point per pattern
that matches at least once, keeping only intents with a positive score, in
the dict's insertion order. -/
def intent_scores (text : List Char) : List (String × Nat) :=
  (INTENT_PATTERNS.map (fun ip => (ip.1, (ip.2.filter (fun p => rsearch p text)).length))).filter
    (fun x => decide (0 < x.2))

/-- detect_intent (lines 152-189). Python's `max(scores, key=scores.get)`
returns the first key of maximal value in insertion order, which the fold
reproduces by replacing the best only on a strictly greater score. -/
def detect_intent (first_message : String) : String :=
  if first_message = "" then "unknown"
  else
    let text := normText first_message
    match detect_special text with
    | some r => r
    | none =>
      match intent_scores text with
      | [] => "unknown"
      | x :: xs => (xs.foldl (fun best c => if best.2 < c.2 then c else best) x).1

/-! ## Message records and the session aggregation loop
(claude_code.py lines 326-459) -/

/-- One structured content block of a `message.content` list. -/
inductive Block where
  | text : String → Block
  | toolUse : String → Block
  | toolCall : String → Block
  | otherBlock : Block
deriving DecidableEq

/-- The `message.content` field: a plain string, a list of typed blocks, or
some other JSON value (whose Python `str()` rendering is carried along). -/
inductive Content where
  | str : String → Content
  | blocks : List Block → Content
  | nonText : String → Content
deriving DecidableEq

/-- get_text_content (lines 339-350): flatten the "text" blocks, joined by
single spaces; a bare string passes through; anything else is `str(content)`. -/
def get_text_content (c : Content) : String :=
  match c with
  | Content.str s => s
  | Content.blocks bs =>
    String.intercalate " " (bs.filterMap (fun b =>
      match b with
      | Block.text t => some t
      | _ => none))
  | Content.nonText s => s

/-- extract_tool_names (lines 326-336): names of "toolCall" / "tool_use"
blocks, in order; non-list content yields no tools. -/
def extract_tool_names (c : Content) : List String :=
  match c with
  | Content.blocks bs =>
    bs.filterMap (fun b =>
      match b with
      | Block.toolCall n => some n
      | Block.toolUse n => some n
      | _ => none)
  | _ => []

/-- One line of a session JSONL artifact, as the read loop sees it.
`junk` is a blank or JSON-undecodable line (skipped at lines 386-391);
`entry ty content ts` is a decoded object with its `type`, its
`message.content` and its `timestamp`. -/
inductive RawLine where
  | junk : RawLine
  | entry : String → Content → String → RawLine
deriving DecidableEq

/-- One message dict as appended at lines 438-449 (and one row of the
`messages` table, minus the session id).  `tool_names` models the
`json.dumps(tool_names) if tool_names else None` column as the list it
serializes, `none` for NULL; the evidence flags model the stored 0/1 ints. -/
structure MsgRec where
  seq : Nat
  role : String
  timestamp : String
  content_preview : String
  tool_names : Option (List String)
  tool_call_count : Nat
  has_error : Bool
  is_retry : Bool
  is_correction : Bool
  is_discovery : Bool
deriving DecidableEq

/-- Python `text[:300]`. -/
def take300 (s : String) : String := String.mk (s.data.take 300)

/-- The mutable state of the read loop in process_session: the session
counter dict fields it updates, the accumulated message list and the
running `seq` counter. -/
structure Agg where
  first_message : Option String
  message_count : Nat
  user_message_count : Nat
  assistant_message_count : Nat
  tool_call_count : Nat
  error_count : Nat
  retry_count : Nat
  correction_count : Nat
  unique_tools : List String
  msgs : List MsgRec
  seq : Nat
deriving DecidableEq

def emptyAgg : Agg :=
  { first_message := none, message_count := 0, user_message_count := 0,
    assistant_message_count := 0, tool_call_count := 0, error_count := 0,
    retry_count := 0, correction_count := 0, unique_tools := [], msgs := [], seq := 0 }

/-- One iteration of the read loop (lines 385-450): skip junk lines and
records whose type is neither "user" nor "assistant"; otherwise classify
the text, capture the first non-caveat user message, bump the counters and
append the message record.  `unique_tools` is the Python set, kept as a
duplicate-free list in first-seen order (it is sorted before serialization). -/
def processLine (st : Agg) (line : RawLine) : Agg :=
  match line with
  | RawLine.junk => st
  | RawLine.entry msg_type content ts =>
    if msg_type = "user" ∨ msg_type = "assistant" then
      let text := get_text_content content
      let tool_names := if msg_type = "assistant" then extract_tool_names content else []
      let has_error := if msg_type = "assistant" then check_patterns text ERROR_PATTERNS else false
      let is_retry := if msg_type = "assistant" then check_patterns text RETRY_PATTERNS else false
      let is_discovery :=
        if msg_type = "assistant" then check_patterns text DISCOVERY_PATTERNS else false
      let is_correction :=
        if msg_type = "user" then check_patterns text CORRECTION_PATTERNS else false
      let first_message :=
        if msg_type = "user" ∧ st.first_message = none
            ∧ "<local-command-caveat>".data.isPrefixOf text.data = false
        then some (take300 text) else st.first_message
      { first_message := first_message,
        message_count := st.message_count + 1,
        user_message_count := st.user_message_count + (if msg_type = "user" then 1 else 0),
        assistant_message_count :=
          st.assistant_message_count + (if msg_type = "user" then 0 else 1),
        tool_call_count := st.tool_call_count + tool_names.length,
        error_count := st.error_count + (if has_error then 1 else 0),
        retry_count := st.retry_count + (if is_retry then 1 else 0),
        correction_count := st.correction_count + (if is_correction then 1 else 0),
        unique_tools := tool_names.foldl (fun acc t => if t ∈ acc then acc else acc ++ [t])
          st.unique_tools,
        msgs := st.msgs ++ [{
          seq := st.seq, role := msg_type, timestamp := ts,
          content_preview := take300 text,
          tool_names := if tool_names = [] then none else some tool_names,
          tool_call_count := tool_names.length,
          has_error := has_error, is_retry := is_retry,
          is_correction := is_correction, is_discovery := is_discovery }],
        seq := st.seq + 1 }
    else st

/-- detect_domain (lines 282-298): per-domain occurrence counts summed over
every message's lowercased preview (empty previews skipped), then the first
maximal domain in dict insertion order, "general" when all scores are zero.
The source iterates messages in the outer loop and domains in the inner
one; accumulating per-domain totals with `zipWith` over the same message
list yields the same sums. -/
def detect_domain (messages : List MsgRec) : String :=
  let init := DOMAIN_PATTERNS.map (fun dp => (dp.1, 0))
  let domain_scores := messages.foldl (fun scores m =>
    let text := m.content_preview.data.map Char.toLower
    if text.isEmpty then scores
    else List.zipWith (fun sc dp =>
      (sc.1, sc.2 + dp.2.foldl (fun a p => a + countMatches p text) 0)) scores DOMAIN_PATTERNS)
    init
  if domain_scores.all (fun x => x.2 == 0) then "general"
  else
    match domain_scores with
    | [] => "general"
    | x :: xs => (xs.foldl (fun best c => if best.2 < c.2 then c else best) x).1

/-- One row of the `sessions` table, which is also the session dict
process_session builds.  `duration_minutes` is float metadata computed by
the driver from filesystem timestamps; it is carried through opaquely. -/
structure SessionRec where
  id : String
  source : String
  project : String
  session_id : String
  first_message : Option String
  message_count : Nat
  user_message_count : Nat
  assistant_message_count : Nat
  tool_call_count : Nat
  error_count : Nat
  retry_count : Nat
  correction_count : Nat
  unique_tools : List String
  size_bytes : Nat
  created_at : String
  modified_at : String
  duration_minutes : Rat
  raw_path : String
  intent : String
  domain : String
  struggle_score : Rat
deriving DecidableEq

/-- compute_struggle_score (lines 192-218): the fixed per-intent linear
weighting of the three evidence counters.  The float weights 0.25 and 0.5
are dyadic and the counters are small integers, so Python float arithmetic
is exact and `Rat` reproduces it. -/
def compute_struggle_score (s : SessionRec) : Rat :=
  let errors : Rat := s.error_count
  let retries : Rat := s.retry_count
  let corrections : Rat := s.correction_count
  if s.intent = "execution" then errors * 2 + retries * 2 + corrections * 3
  else if s.intent = "planning" then corrections * 3 + retries * (1 / 4)
  else if s.intent = "debug" then retries * 1 + corrections * 3
  else if s.intent = "config" then retries * 2 + errors * 1
  else if s.intent = "research" then corrections * 3
  else if s.intent = "review" then corrections * 2 + retries * (1 / 2)
  else if s.intent = "startup" then 0
  else if s.intent = "continuation" then errors * 2 + retries * 2 + corrections * 3
  else errors + retries + corrections * 2

/-- Python's `sorted` on strings (code-point lexicographic): sort with the
total preorder `a ≤ b` written as `¬ b < a`. -/
def sortedStrings (l : List String) : List String :=
  sortOrd (fun a b => !(decide (b < a))) l

/-- One session artifact as the ingest loop sees it.  `lines` holds the
records the read loop successfully consumed; when an exception interrupts
reading (an unreadable file, a decode error mid-iteration), `lines` is the
prefix read before it and `raisesAfter` is true.  The try/except at
lines 383-453 catches the exception, logs it and falls through, so
process_session finalizes and returns whatever was accumulated —
accordingly `processSession` below does not consult `raisesAfter`. -/
structure SessionFile where
  path : String
  project : String
  session_id : String
  size_bytes : Nat
  created_at : String
  modified_at : String
  duration_minutes : Rat
  lines : List RawLine
  raisesAfter : Bool
deriving DecidableEq

/-- process_session (lines 353-459): run the read loop over the lines that
could be read, then derive unique_tools (sorted), intent, domain and the
struggle score (computed, as in the source, after intent is stored). -/
def processSession (f : SessionFile) : SessionRec × List MsgRec :=
  let st := f.lines.foldl processLine emptyAgg
  let sess0 : SessionRec := {
    id := "claude-code:" ++ f.session_id,
    source := "claude-code",
    project := f.project,
    session_id := f.session_id,
    first_message := st.first_message,
    message_count := st.message_count,
    user_message_count := st.user_message_count,
    assistant_message_count := st.assistant_message_count,
    tool_call_count := st.tool_call_count,
    error_count := st.error_count,
    retry_count := st.retry_count,
    correction_count := st.correction_count,
    unique_tools := sortedStrings st.unique_tools,
    size_bytes := f.size_bytes,
    created_at := f.created_at,
    modified_at := f.modified_at,
    duration_minutes := f.duration_minutes,
    raw_path := f.path,
    intent := detect_intent (st.first_message.getD ""),
    domain := detect_domain st.msgs,
    struggle_score := 0 }
  ({ sess0 with struggle_score := compute_struggle_score sess0 }, st.msgs)

/-! ## The session store and the ingest write path
(claude_code.py lines 462-563) -/

/-- One row of the `messages` table. -/
structure MsgRow where
  session_id : String
  seq : Nat
  role : String
  timestamp : String
  content_preview : String
  tool_names : Option (List String)
  tool_call_count : Nat
  has_error : Bool
  is_retry : Bool
  is_correction : Bool
  is_discovery : Bool
deriving DecidableEq

/-- The SQLite database: the `sessions` table and the `messages` table. -/
structure Store where
  sessions : List SessionRec
  messages : List MsgRow
deriving DecidableEq

def emptyStore : Store := { sessions := [], messages := [] }

/-- The INSERT at lines 538-548, prefixing the session id to a message dict. -/
def toMsgRow (sid : String) (m : MsgRec) : MsgRow :=
  { session_id := sid, seq := m.seq, role := m.role, timestamp := m.timestamp,
    content_preview := m.content_preview, tool_names := m.tool_names,
    tool_call_count := m.tool_call_count, has_error := m.has_error,
    is_retry := m.is_retry, is_correction := m.is_correction,
    is_discovery := m.is_discovery }

/-- The stable id `"claude-code:" ++ session_id` the artifact is stored under. -/
def sessionIdOf (f : SessionFile) : String := "claude-code:" ++ f.session_id

/-- The per-artifact write path of ingest (lines 509-548): process the
file, INSERT OR REPLACE the session row (keyed by the primary key `id`),
DELETE every message row of that session id and INSERT the fresh ones. -/
def ingestFile (db : Store) (f : SessionFile) : Store :=
  let sm := processSession f
  { sessions := db.sessions.filter (fun r => !(r.id == sm.1.id)) ++ [sm.1],
    messages := db.messages.filter (fun r => !(r.session_id == sm.1.id))
      ++ sm.2.map (toMsgRow sm.1.id) }

/-- One iteration of the ingest loop for one artifact (lines 491-553,
without the `--hours` cutoff and `--force` flags): skip the artifact when a
stored session has the same `raw_path` and `modified_at`, otherwise run the
write path.  The source snapshots the `(raw_path, modified_at)` map before
the loop; since each artifact path occurs once per run, checking against
the current store is equivalent. -/
def ingestOne (db : Store) (f : SessionFile) : Store :=
  if db.sessions.any (fun r => r.raw_path == f.path && r.modified_at == f.modified_at)
  then db
  else ingestFile db f

/-- The ingest loop over the discovered artifacts. -/
def ingestAll (db : Store) (fs : List SessionFile) : Store :=
  fs.foldl ingestOne db

/-! ## Signal extractors (extract.py)

The extractors are modelled down to the structured evidence they render
(selected sessions, chains, pairs, triplets, runs); the surrounding
f-string formatting is presentation only. -/

/-- The intent filter `intent IN ('execution', 'continuation', 'debug')`. -/
def intent_filter (s : SessionRec) : Bool :=
  s.intent == "execution" || s.intent == "continuation" || s.intent == "debug"

/-- The session SELECT shared verbatim by strategies A (lines 24-31),
B (lines 72-79) and D (lines 155-162): project match, struggle_score > 5,
intent in the set, ordered by struggle_score descending, LIMIT 10. -/
def select_struggle_sessions (db : Store) (project : String) : List SessionRec :=
  (sortOrd (fun a b => decide (b.struggle_score ≤ a.struggle_score))
    (db.sessions.filter (fun s =>
      s.project == project && decide ((5 : Rat) < s.struggle_score) && intent_filter s))).take 10

/-- The session SELECT of strategy C (lines 117-123): project match,
correction_count > 0, ordered by correction_count descending, LIMIT 10. -/
def select_correction_sessions (db : Store) (project : String) : List SessionRec :=
  (sortOrd (fun a b => decide (b.correction_count ≤ a.correction_count))
    (db.sessions.filter (fun s =>
      s.project == project && decide (0 < s.correction_count)))).take 10

/-- A message SELECT `WHERE session_id = ? AND <flt> ORDER BY seq`. -/
def session_messages (db : Store) (sid : String) (flt : MsgRow → Bool) : List MsgRow :=
  sortOrd (fun a b => decide (a.seq ≤ b.seq))
    (db.messages.filter (fun m => m.session_id == sid && flt m))

/-- The chain loop of strategy A (lines 48-57): `cur` is the open chain,
`prev` the sequence number of the previous retry; a gap of more than 5
closes the chain, and a chain is emitted only when it has at least
`min_chain` members.  Sequence numbers are naturals, so `r.1 - prev` is
truncated subtraction; since a non-positive Python difference also
satisfies `<= 5`, the branch taken is the same. -/
def chainGo (min_chain : Nat) : List (Nat × String) → Nat → List (Nat × String) →
    List (List (Nat × String))
  | cur, _, [] => if min_chain ≤ cur.length then [cur] else []
  | cur, prev, r :: rs =>
    if r.1 - prev ≤ 5 then chainGo min_chain (cur ++ [r]) r.1 rs
    else (if min_chain ≤ cur.length then [cur] else []) ++ chainGo min_chain [r] r.1 rs

/-- Chains of retries (strategy A, lines 46-57) over the `(seq, preview)`
rows, starting with the first retry as the open chain. -/
def find_chains (min_chain : Nat) : List (Nat × String) → List (List (Nat × String))
  | [] => []
  | r :: rs => chainGo min_chain [r] r.1 rs

/-- Strategy A (lines 19-65): for each selected high-struggle session, the
retry-flagged assistant messages ordered by seq, skipped when fewer than
`min_chain` of them exist, otherwise grouped into chains. -/
def strategy_a_retry_chains (db : Store) (project : String) (min_chain : Nat) :
    List (SessionRec × List (List (Nat × String))) :=
  (select_struggle_sessions db project).filterMap (fun s =>
    let retries := (session_messages db s.id
      (fun m => m.is_retry && m.role == "assistant")).map (fun m => (m.seq, m.content_preview))
    if retries.length < min_chain then none
    else some (s, find_chains min_chain retries))

/-- The pairing loop of strategy B (lines 96-100): for each error, the
first discovery (in ascending seq order) whose sequence is strictly
greater and at most 10 positions later; `break` after the first hit.  The
Python chained comparison `0 < d - e <= 10` coincides with the truncated
Nat subtraction: both conjuncts hold exactly when `e < d` and `d ≤ e+10`. -/
def find_pairs (errors discoveries : List (Nat × String)) : List (Nat × String × Nat × String) :=
  errors.foldl (fun pairs e =>
    match discoveries.find? (fun d => decide (0 < d.1 - e.1) && decide (d.1 - e.1 ≤ 10)) with
    | some d => pairs ++ [(e.1, e.2, d.1, d.2)]
    | none => pairs) []

/-- Strategy B (lines 68-110): for each selected high-struggle session,
pair the error-flagged messages with discovery-flagged ones; sessions with
no pairs contribute nothing. -/
def strategy_b_error_resolution (db : Store) (project : String) :
    List (SessionRec × List (Nat × String × Nat × String)) :=
  (select_struggle_sessions db project).filterMap (fun s =>
    let flagged := session_messages db s.id (fun m => m.has_error || m.is_discovery)
    let errors := (flagged.filter (fun m => m.has_error)).map (fun m => (m.seq, m.content_preview))
    let discoveries :=
      (flagged.filter (fun m => m.is_discovery)).map (fun m => (m.seq, m.content_preview))
    let pairs := find_pairs errors discoveries
    if pairs = [] then none else some (s, pairs))

/-- Strategy C (lines 113-148): for each selected correction session, every
correction message with the previews of its immediate predecessor and
successor (the LEFT JOINs on `seq - 1` / `seq + 1`; `p.seq + 1 = m.seq`
avoids the Nat truncation at seq 0 and agrees with SQL, where `seq - 1 = -1`
matches no row). -/
def strategy_c_corrections (db : Store) (project : String) :
    List (SessionRec × List (Nat × String × Option String × Option String)) :=
  (select_correction_sessions db project).filterMap (fun s =>
    let corrections := (session_messages db s.id (fun m => m.is_correction)).map (fun m =>
      (m.seq, m.content_preview,
       (db.messages.find? (fun p => p.session_id == s.id && p.seq + 1 == m.seq)).map
         (fun p => p.content_preview),
       (db.messages.find? (fun p => p.session_id == s.id && p.seq == m.seq + 1)).map
         (fun p => p.content_preview)))
    if corrections = [] then none else some (s, corrections))

/-- The inner `while j < len(messages)` loop of strategy D (lines 189-197):
extend the run while the next message's first tool equals the anchor, skip
messages whose tool list is NULL or empty without breaking the run, stop at
the first differing first tool (returning the unconsumed suffix, where the
outer loop resumes via `i = max(j, i + 1)`). -/
def repChain (primary : String) : List MsgRow → List (Nat × String) × List MsgRow
  | [] => ([], [])
  | m :: ms =>
    match m.tool_names.getD [] with
    | [] => repChain primary ms
    | t :: _ =>
      if t = primary then
        ((m.seq, m.content_preview) :: (repChain primary ms).1, (repChain primary ms).2)
      else ([], m :: ms)

/-- The outer scan of strategy D (lines 174-203): anchor a run at the next
message with a nonempty tool list, collect the run, emit it when it has at
least `min_repeats` members, and continue at the position the inner loop
stopped.  The loop index `i = max(j, i + 1)` strictly increases, so the
loop takes at most as many steps as there are messages; the structural
fuel argument counts the remaining steps. -/
def scanGo (min_repeats : Nat) : Nat → List MsgRow → List (String × List (Nat × String))
  | 0, _ => []
  | _ + 1, [] => []
  | fuel + 1, m :: ms =>
    match m.tool_names.getD [] with
    | [] => scanGo min_repeats fuel ms
    | t :: _ =>
      let chain := (m.seq, m.content_preview) :: (repChain t ms).1
      (if min_repeats ≤ chain.length then [(t, chain)] else [])
        ++ scanGo min_repeats fuel (repChain t ms).2

/-- The repetition runs of strategy D over one session's tool messages. -/
def scan_repetitions (min_repeats : Nat) (msgs : List MsgRow) :
    List (String × List (Nat × String)) :=
  scanGo min_repeats msgs.length msgs

/-- Strategy D (lines 151-210): for each selected high-struggle session,
scan the messages with `tool_call_count > 0` in seq order for repetition
runs; sessions with no runs contribute nothing. -/
def strategy_d_tool_repetition (db : Store) (project : String) (min_repeats : Nat) :
    List (SessionRec × List (String × List (Nat × String))) :=
  (select_struggle_sessions db project).filterMap (fun s =>
    let msgs := session_messages db s.id (fun m => decide (0 < m.tool_call_count))
    let reps := scan_repetitions min_repeats msgs
    if reps = [] then none else some (s, reps))

/-! ## Specification-side restatement of the retry grouping

The spec describes strategy A's grouping as: greedily group consecutive
retries while the gap is at most 5, then emit only the groups of length at
least `min_chain`.  `gapGroups` is that grouping with no length filter,
written from the spec's words; the refinement theorem for C6 compares
`find_chains` against `gapGroups` followed by the filter. -/

/-- Greedy gap-at-most-5 grouping: `cur` is the open group, `prev` the
previous retry's sequence number; a larger gap closes the group.  Every
group is emitted. -/
def gapGo : List (Nat × String) → Nat → List (Nat × String) → List (List (Nat × String))
  | cur, _, [] => [cur]
  | cur, prev, r :: rs =>
    if r.1 - prev ≤ 5 then gapGo (cur ++ [r]) r.1 rs
    else cur :: gapGo [r] r.1 rs

/-- All greedy gap-groups of a retry sequence (spec wording, no filter). -/
def gapGroups : List (Nat × String) → List (List (Nat × String))
  | [] => []
  | r :: rs => gapGo [r] r.1 rs

/-! ## Concrete example data used by the closed theorems -/

/-- A session artifact whose read loop is interrupted by an exception after
one user record was consumed. -/
def exnFile : SessionFile :=
  { path := "/proj/s1.jsonl", project := "proj", session_id := "s1",
    size_bytes := 100, created_at := "c", modified_at := "m", duration_minutes := 0,
    lines := [RawLine.entry "user" (Content.str "hello") "t0"],
    raisesAfter := true }

/-- A store already holding ten message rows for session `claude-code:s1`. -/
def tenRowStore : Store :=
  { sessions := [],
    messages := (List.range 10).map (fun n =>
      { session_id := "claude-code:s1", seq := n, role := "user", timestamp := "",
        content_preview := "old", tool_names := none, tool_call_count := 0,
        has_error := false, is_retry := false, is_correction := false,
        is_discovery := false }) }

/-- A re-ingested version of the same artifact holding three records. -/
def threeLineFile : SessionFile :=
  { path := "/proj/s1.jsonl", project := "proj", session_id := "s1",
    size_bytes := 50, created_at := "c", modified_at := "m2", duration_minutes := 0,
    lines := [RawLine.entry "user" (Content.str "a") "t0",
              RawLine.entry "assistant" (Content.str "b") "t1",
              RawLine.entry "user" (Content.str "c") "t2"],
    raisesAfter := false }

/-- A consistent session row (intent "review", one correction, score
2*1 + 0.5*0 = 2) that strategy C selects although its struggle score is
not above 5. -/
def lowScoreRow : SessionRec :=
  { id := "claude-code:c1", source := "claude-code", project := "p", session_id := "c1",
    first_message := some "review the code", message_count := 2, user_message_count := 1,
    assistant_message_count := 1, tool_call_count := 0, error_count := 0,
    retry_count := 0, correction_count := 1, unique_tools := [], size_bytes := 10,
    created_at := "", modified_at := "", duration_minutes := 0, raw_path := "/p/c1.jsonl",
    intent := "review", domain := "general", struggle_score := 2 }

def lowScoreStore : Store := { sessions := [lowScoreRow], messages := [] }

/-- A message row carrying the given tool list for the strategy D example. -/
def toolRow (n : Nat) (ts : List String) : MsgRow :=
  { session_id := "claude-code:d1", seq := n, role := "assistant", timestamp := "",
    content_preview := "", tool_names := if ts = [] then none else some ts,
    tool_call_count := ts.length, has_error := false, is_retry := false,
    is_correction := false, is_discovery := false }

/-- A high-struggle execution session row for the strategy D example. -/
def toolSessionRow : SessionRec :=
  { id := "claude-code:d1", source := "claude-code", project := "p", session_id := "d1",
    first_message := some "implement it", message_count := 7, user_message_count := 0,
    assistant_message_count := 7, tool_call_count := 6, error_count := 3,
    retry_count := 0, correction_count := 0, unique_tools := ["A", "B"], size_bytes := 10,
    created_at := "", modified_at := "", duration_minutes := 0, raw_path := "/p/d1.jsonl",
    intent := "execution", domain := "general", struggle_score := 6 }

/-- A store whose per-message first tools read A, A, none, A, B, B, B. -/
def toolStore : Store :=
  { sessions := [toolSessionRow],
    messages := [toolRow 0 ["A"], toolRow 1 ["A"], toolRow 2 [], toolRow 3 ["A"],
                 toolRow 4 ["B"], toolRow 5 ["B"], toolRow 6 ["B"]] }

/-- The fold Python's `max(scores, key=scores.get)` performs over the keys
in insertion order: replace the best only on a strictly greater value, so
the first maximal element wins.  `detect_intent` and `detect_domain` use
this fold with `f = Prod.snd`. -/
def foldMax {α : Type} (f : α → Nat) (x : α) (xs : List α) : α :=
  xs.foldl (fun b c => if f b < f c then c else b) x

/-- The loop invariant of the read loop: the accumulated message records
carry the sequence numbers `0, 1, ...` in order, the running `seq` counter
equals the number of accumulated records, and so does `message_count`. -/
def seqInvariant (st : Agg) : Prop :=
  st.msgs.map (fun m => m.seq) = List.range st.msgs.length
    ∧ st.seq = st.msgs.length
    ∧ st.message_count = st.msgs.length

/-! ## Lemmas about the sort used for ORDER BY -/

theorem mem_insertOrd {α : Type} {le : α → α → Bool} {a x : α} {l : List α} :
    x ∈ insertOrd le a l ↔ x = a ∨ x ∈ l := by
  induction l with
  | nil => simp [insertOrd]
  | cons b bs ih =>
    simp only [insertOrd]
    split
    · simp [or_comm, or_assoc, or_left_comm]
    · simp [ih, or_comm, or_assoc, or_left_comm]

theorem mem_sortOrd {α : Type} {le : α → α → Bool} {x : α} {l : List α} :
    x ∈ sortOrd le l ↔ x ∈ l := by
  induction l with
  | nil => simp [sortOrd]
  | cons b bs ih =>
    simp only [sortOrd, List.foldr] at *
    rw [mem_insertOrd, ih]
    simp

theorem pairwise_insertOrd {α : Type} {le : α → α → Bool}
    (htr : ∀ a b c, le a b = true → le b c = true → le a c = true)
    (hto : ∀ a b, le a b = true ∨ le b a = true)
    {a : α} {l : List α} (h : l.Pairwise (fun x y => le x y = true)) :
    (insertOrd le a l).Pairwise (fun x y => le x y = true) := by
  induction l with
  | nil => simp [insertOrd]
  | cons b bs ih =>
    rcases List.pairwise_cons.mp h with ⟨hb, hbs⟩
    simp only [insertOrd]
    split
    next hab =>
      refine List.pairwise_cons.mpr ⟨?_, h⟩
      intro y hy
      rcases List.mem_cons.mp hy with rfl | hy2
      · exact hab
      · exact htr a b y hab (hb y hy2)
    next hab =>
      refine List.pairwise_cons.mpr ⟨?_, ih hbs⟩
      intro y hy
      rcases mem_insertOrd.mp hy with rfl | hy2
      · rcases hto y b with hba | hba
        · exact absurd hba hab
        · exact hba
      · exact hb y hy2

theorem pairwise_sortOrd {α : Type} {le : α → α → Bool}
    (htr : ∀ a b c, le a b = true → le b c = true → le a c = true)
    (hto : ∀ a b, le a b = true ∨ le b a = true) (l : List α) :
    (sortOrd le l).Pairwise (fun x y => le x y = true) := by
  induction l with
  | nil => simp [sortOrd]
  | cons b bs ih => exact pairwise_insertOrd htr hto ih

/-! ## Lemmas about the aggregation loop -/

theorem processLine_seqInvariant {st : Agg} (h : seqInvariant st) (line : RawLine) :
    seqInvariant (processLine st line) := by
  obtain ⟨h1, h2, h3⟩ := h
  cases line with
  | junk => exact ⟨h1, h2, h3⟩
  | entry ty content ts =>
    by_cases hty : ty = "user" ∨ ty = "assistant"
    · simp only [processLine, if_pos hty]
      refine ⟨?_, ?_, ?_⟩
      · simp [h1, h2, List.range_succ]
      · simp [h2]
      · simp [h3]
    · simp only [processLine, if_neg hty]
      exact ⟨h1, h2, h3⟩

theorem foldl_processLine_seqInvariant {st : Agg} (h : seqInvariant st) (lines : List RawLine) :
    seqInvariant (lines.foldl processLine st) := by
  induction lines generalizing st with
  | nil => exact h
  | cons l ls ih => exact ih (processLine_seqInvariant h l)

/-- C10. For every ingested session the sequence numbers of its message
records are exactly 0, 1, ..., N-1 in file order, and N equals the
session's stored message_count. -/
theorem claim_C10_sequence_numbers (f : SessionFile) :
    ((processSession f).2.map (fun m => m.seq)
        = List.range ((processSession f).1.message_count))
      ∧ (processSession f).1.message_count = (processSession f).2.length := by
  have hinv : seqInvariant (f.lines.foldl processLine emptyAgg) :=
    foldl_processLine_seqInvariant (by exact ⟨rfl, rfl, rfl⟩) f.lines
  obtain ⟨h1, _, h3⟩ := hinv
  constructor
  · show (f.lines.foldl processLine emptyAgg).msgs.map (fun m => m.seq) = _
    rw [h1]
    congr 1
    exact h3.symm
  · exact h3

/-- C4. Recomputing the struggle score from a session's stored intent and
counters reproduces the stored value exactly, and the weighting table has
the stated rows: execution and continuation weight errors*2 + retries*2 +
corrections*3, startup is always 0, unknown weighs errors*1 + retries*1 +
corrections*2. -/
theorem claim_C4_struggle_score_table :
    (∀ f : SessionFile,
        (processSession f).1.struggle_score = compute_struggle_score (processSession f).1)
      ∧ (∀ s : SessionRec, compute_struggle_score { s with intent := "execution" }
          = (s.error_count : Rat) * 2 + (s.retry_count : Rat) * 2 + (s.correction_count : Rat) * 3)
      ∧ (∀ s : SessionRec, compute_struggle_score { s with intent := "continuation" }
          = (s.error_count : Rat) * 2 + (s.retry_count : Rat) * 2 + (s.correction_count : Rat) * 3)
      ∧ (∀ s : SessionRec, compute_struggle_score { s with intent := "startup" } = 0)
      ∧ (∀ s : SessionRec, compute_struggle_score { s with intent := "unknown" }
          = (s.error_count : Rat) + (s.retry_count : Rat) + (s.correction_count : Rat) * 2) := by
  refine ⟨?_, ?_, ?_, ?_, ?_⟩
  · intro f
    simp [processSession, compute_struggle_score]
  · intro s
    simp [compute_struggle_score]
  · intro s
    simp [compute_struggle_score]
  · intro s
    simp [compute_struggle_score]
  · intro s
    simp [compute_struggle_score]

/-- C9. The ingest write path fully replaces a session's message rows:
afterwards the rows stored under the session's id are exactly the rows of
the fresh classification pass, rows of other sessions are untouched, and
in particular re-ingesting an artifact that shrank from 10 message rows to
3 leaves exactly 3 rows. -/
theorem claim_C9_message_replacement :
    (∀ (db : Store) (f : SessionFile),
        (ingestFile db f).messages.filter (fun r => r.session_id == sessionIdOf f)
          = (processSession f).2.map (toMsgRow (sessionIdOf f)))
      ∧ (∀ (db : Store) (f : SessionFile),
        (ingestFile db f).messages.filter (fun r => !(r.session_id == sessionIdOf f))
          = db.messages.filter (fun r => !(r.session_id == sessionIdOf f)))
      ∧ ((ingestFile tenRowStore threeLineFile).messages.filter
          (fun r => r.session_id == "claude-code:s1")).length = 3
      ∧ (tenRowStore.messages.filter
          (fun r => r.session_id == "claude-code:s1")).length = 10 := by
  have hid : ∀ f : SessionFile, (processSession f).1.id = sessionIdOf f := fun f => rfl
  refine ⟨?_, ?_, by decide, by decide⟩
  · intro db f
    simp only [ingestFile, List.filter_append, hid]
    have hA : (db.messages.filter (fun r => !(r.session_id == sessionIdOf f))).filter
        (fun r => r.session_id == sessionIdOf f) = [] := by
      rw [List.filter_eq_nil_iff]
      intro a ha h2
      have h3 := (List.mem_filter.mp ha).2
      rw [h2] at h3
      simp at h3
    have hB : (((processSession f).2.map (toMsgRow (sessionIdOf f))).filter
          (fun r => r.session_id == sessionIdOf f))
        = (processSession f).2.map (toMsgRow (sessionIdOf f)) := by
      rw [List.filter_eq_self]
      intro b hb
      obtain ⟨m, hm, rfl⟩ := List.mem_map.mp hb
      simp [toMsgRow]
    rw [hA, hB, List.nil_append]
  · intro db f
    simp only [ingestFile, List.filter_append, hid]
    have hA : (db.messages.filter (fun r => !(r.session_id == sessionIdOf f))).filter
        (fun r => !(r.session_id == sessionIdOf f))
        = db.messages.filter (fun r => !(r.session_id == sessionIdOf f)) := by
      rw [List.filter_eq_self]
      intro a ha
      exact (List.mem_filter.mp ha).2
    have hB : (((processSession f).2.map (toMsgRow (sessionIdOf f))).filter
        (fun r => !(r.session_id == sessionIdOf f))) = [] := by
      rw [List.filter_eq_nil_iff]
      intro a ha h2
      obtain ⟨m, hm, rfl⟩ := List.mem_map.mp ha
      simp [toMsgRow] at h2
    rw [hA, hB, List.append_nil]

/-- C1 as stated is false: the try/except inside process_session catches a
mid-read exception and the driver still persists the partial session.  For
the artifact `exnFile`, whose read was interrupted by an exception after
one record, ingest persists both a session row and a message row. -/
theorem claim_C1_counterexample :
    exnFile.raisesAfter = true
      ∧ (ingestFile emptyStore exnFile).sessions.map (fun s => s.id) = ["claude-code:s1"]
      ∧ (ingestFile emptyStore exnFile).messages.length = 1 := by
  refine ⟨rfl, by decide, by decide⟩

/-- C1 amended: an exception while reading a session's file is caught and
only truncates what is read — the partially aggregated session, with the
records consumed before the exception, is still persisted (the write is
identical to the one for an undisturbed read of the same prefix), and
processing continues with the next artifact. -/
theorem claim_C1_amended (db : Store) (f : SessionFile) (_h : f.raisesAfter = true) :
    ingestFile db f = ingestFile db { f with raisesAfter := false }
      ∧ (processSession f).1 ∈ (ingestFile db f).sessions
      ∧ ∀ rest, ingestAll db (f :: rest) = ingestAll (ingestOne db f) rest := by
  refine ⟨rfl, ?_, fun rest => rfl⟩
  simp [ingestFile]

theorem claim_C1_witness :
    (processSession exnFile).1 ∈ (ingestFile emptyStore exnFile).sessions :=
  (claim_C1_amended emptyStore exnFile rfl).2.1

/-- C2 as stated is false: the three assistant evidence flags are computed
independently and one input text can set several of them — on the
assistant text "failed: the issue is resolved" the classifier sets
has_error, is_retry and is_discovery simultaneously. -/
theorem claim_C2_counterexample :
    ((processLine emptyAgg
        (RawLine.entry "assistant" (Content.str "failed: the issue is resolved") "")).msgs.map
      (fun m => (m.has_error, m.is_retry, m.is_discovery, m.is_correction)))
      = [(true, true, true, false)] := by decide

/-- C2 amended: each evidence flag of an assistant message is its own
pattern check over the message text alone (so the three flags are
independent and may overlap), is_correction is computed only for user
messages (it is always false on assistant messages), and user messages
never carry the three assistant flags. -/
theorem claim_C2_amended (st : Agg) (content : Content) (ts : String) :
    (processLine st (RawLine.entry "assistant" content ts)).msgs
        = st.msgs ++ [{
            seq := st.seq, role := "assistant", timestamp := ts,
            content_preview := take300 (get_text_content content),
            tool_names := if extract_tool_names content = [] then none
              else some (extract_tool_names content),
            tool_call_count := (extract_tool_names content).length,
            has_error := check_patterns (get_text_content content) ERROR_PATTERNS,
            is_retry := check_patterns (get_text_content content) RETRY_PATTERNS,
            is_correction := false,
            is_discovery := check_patterns (get_text_content content) DISCOVERY_PATTERNS }]
      ∧ (processLine st (RawLine.entry "user" content ts)).msgs
        = st.msgs ++ [{
            seq := st.seq, role := "user", timestamp := ts,
            content_preview := take300 (get_text_content content),
            tool_names := none, tool_call_count := 0,
            has_error := false, is_retry := false,
            is_correction := check_patterns (get_text_content content) CORRECTION_PATTERNS,
            is_discovery := false }] := by
  constructor
  · rfl
  · rfl

/-! ## Lemmas about the retry-chain grouping (strategy A) -/

theorem chainGo_eq_filter (m : Nat) :
    ∀ (rs cur : List (Nat × String)) (prev : Nat),
      chainGo m cur prev rs = (gapGo cur prev rs).filter (fun c => decide (m ≤ c.length)) := by
  intro rs
  induction rs with
  | nil =>
    intro cur prev
    by_cases h : m ≤ cur.length
    · simp [chainGo, gapGo, h]
    · simp [chainGo, gapGo, h]
  | cons r rs ih =>
    intro cur prev
    simp only [chainGo, gapGo]
    split
    · exact ih _ _
    · rw [List.filter_cons, ih]
      by_cases h : m ≤ cur.length
      · simp [h]
      · simp [h]

theorem find_chains_eq_filter (m : Nat) (l : List (Nat × String)) :
    find_chains m l = (gapGroups l).filter (fun c => decide (m ≤ c.length)) := by
  cases l with
  | nil => simp [find_chains, gapGroups]
  | cons r rs => exact chainGo_eq_filter m rs [r] r.1

theorem gapGo_flatten :
    ∀ (rs cur : List (Nat × String)) (prev : Nat), (gapGo cur prev rs).flatten = cur ++ rs := by
  intro rs
  induction rs with
  | nil =>
    intro cur prev
    simp [gapGo]
  | cons r rs ih =>
    intro cur prev
    simp only [gapGo]
    split
    · rw [ih]
      simp
    · simp only [List.flatten_cons]
      rw [ih]
      simp

theorem gapGo_chain' :
    ∀ (rs cur : List (Nat × String)) (prev : Nat),
      List.Chain' (fun a b => b.1 - a.1 ≤ 5) cur →
      (∀ y ∈ cur.getLast?, y.1 = prev) →
      ∀ c ∈ gapGo cur prev rs, List.Chain' (fun a b => b.1 - a.1 ≤ 5) c := by
  intro rs
  induction rs with
  | nil =>
    intro cur prev h1 _ c hc
    simp only [gapGo, List.mem_singleton] at hc
    subst hc
    exact h1
  | cons r rs ih =>
    intro cur prev h1 h2 c hc
    simp only [gapGo] at hc
    split at hc
    next hgap =>
      refine ih (cur ++ [r]) r.1 ?_ ?_ c hc
      · rw [List.chain'_append]
        refine ⟨h1, List.chain'_singleton r, ?_⟩
        intro x hx y hy
        simp only [List.head?_cons, Option.mem_def, Option.some.injEq] at hy
        subst hy
        have hx1 := h2 x hx
        omega
      · intro y hy
        rw [List.getLast?_concat] at hy
        simp only [Option.mem_def, Option.some.injEq] at hy
        subst hy
        rfl
    next hgap =>
      rcases List.mem_cons.mp hc with rfl | hc2
      · exact h1
      · refine ih [r] r.1 (List.chain'_singleton r) ?_ c hc2
        intro y hy
        simp only [List.getLast?_singleton, Option.mem_def, Option.some.injEq] at hy
        subst hy
        rfl

/-- C6. The retry-chain extractor's grouping: it emits exactly the greedy
gap-at-most-5 groups whose length reaches min_chain (`gapGroups` is the
grouping as the spec words it), the groups flatten back to the retry sequence in
order, every emitted chain respects the gap bound and the length bound,
and on retries at sequences [2,3,4,10,11,12,13] with min_chain 3 exactly
two chains of lengths 3 and 4 are produced. -/
theorem claim_C6_retry_chains :
    (∀ (m : Nat) (l : List (Nat × String)),
        find_chains m l = (gapGroups l).filter (fun c => decide (m ≤ c.length)))
      ∧ (∀ l : List (Nat × String), (gapGroups l).flatten = l)
      ∧ (∀ (m : Nat) (l c : List (Nat × String)),
          c ∈ find_chains m l →
            List.Chain' (fun a b => b.1 - a.1 ≤ 5) c ∧ m ≤ c.length)
      ∧ ((find_chains 3 [(2, ""), (3, ""), (4, ""), (10, ""), (11, ""), (12, ""), (13, "")]).map
          (List.map Prod.fst) = [[2, 3, 4], [10, 11, 12, 13]])
      ∧ ((find_chains 3 [(2, ""), (3, ""), (4, ""), (10, ""), (11, ""), (12, ""), (13, "")]).map
          List.length = [3, 4]) := by
  refine ⟨find_chains_eq_filter, ?_, ?_, by decide, by decide⟩
  · intro l
    cases l with
    | nil => simp [gapGroups]
    | cons r rs => simpa using gapGo_flatten rs [r] r.1
  · intro m l c hc
    rw [find_chains_eq_filter] at hc
    have hmem := List.mem_filter.mp hc
    refine ⟨?_, by simpa using hmem.2⟩
    have hg := hmem.1
    cases l with
    | nil => simp [gapGroups] at hg
    | cons r rs =>
      refine gapGo_chain' rs [r] r.1 (List.chain'_singleton r) ?_ c hg
      intro y hy
      simp only [List.getLast?_singleton, Option.mem_def, Option.some.injEq] at hy
      subst hy
      rfl

theorem claim_C6_witness :
    List.Chain' (fun (a b : Nat × String) => b.1 - a.1 ≤ 5) [(2, ""), (3, ""), (4, "")]
      ∧ 3 ≤ [((2 : Nat), ""), (3, ""), (4, "")].length :=
  claim_C6_retry_chains.2.2.1 3
    [(2, ""), (3, ""), (4, ""), (10, ""), (11, ""), (12, ""), (13, "")]
    [(2, ""), (3, ""), (4, "")] (by decide)

/-! ## Lemmas about the error-resolution pairing (strategy B) -/

theorem find_pairs_foldl_eq (discoveries : List (Nat × String)) :
    ∀ (errors : List (Nat × String)) (acc : List (Nat × String × Nat × String)),
      errors.foldl (fun pairs e =>
        match discoveries.find? (fun d => decide (0 < d.1 - e.1) && decide (d.1 - e.1 ≤ 10)) with
        | some d => pairs ++ [(e.1, e.2, d.1, d.2)]
        | none => pairs) acc
      = acc ++ errors.filterMap (fun e =>
          (discoveries.find? (fun d => decide (0 < d.1 - e.1) && decide (d.1 - e.1 ≤ 10))).map
            (fun d => (e.1, e.2, d.1, d.2))) := by
  intro errors
  induction errors with
  | nil =>
    intro acc
    simp
  | cons e es ih =>
    intro acc
    simp only [List.foldl, List.filterMap_cons]
    cases h : discoveries.find? (fun d => decide (0 < d.1 - e.1) && decide (d.1 - e.1 ≤ 10)) with
    | none =>
      simp only [h]
      rw [ih]
      simp
    | some d =>
      simp only [h, Option.map_some]
      rw [ih]
      simp

theorem find_pairs_eq (errors discoveries : List (Nat × String)) :
    find_pairs errors discoveries
      = errors.filterMap (fun e =>
          (discoveries.find? (fun d => decide (0 < d.1 - e.1) && decide (d.1 - e.1 ≤ 10))).map
            (fun d => (e.1, e.2, d.1, d.2))) := by
  unfold find_pairs
  rw [find_pairs_foldl_eq]
  simp

theorem find?_min_of_sorted {p : Nat × String → Bool} :
    ∀ {l : List (Nat × String)} {d : Nat × String},
      l.Pairwise (fun a b => a.1 < b.1) → l.find? p = some d →
      ∀ x ∈ l, p x = true → d.1 ≤ x.1 := by
  intro l
  induction l with
  | nil =>
    intro d _ hf
    simp at hf
  | cons y ys ih =>
    intro d hs hf x hx hp
    rcases List.pairwise_cons.mp hs with ⟨hy, hys⟩
    simp only [List.find?] at hf
    cases hpy : p y with
    | true =>
      rw [hpy] at hf
      simp only [Option.some.injEq] at hf
      subst hf
      rcases List.mem_cons.mp hx with rfl | hx2
      · exact Nat.le_refl _
      · exact Nat.le_of_lt (hy x hx2)
    | false =>
      rw [hpy] at hf
      rcases List.mem_cons.mp hx with rfl | hx2
      · rw [hp] at hpy
        exact absurd hpy (by simp)
      · exact ih hys hf x hx2 hp

/-- C7. The pairing of strategy B: every emitted pair joins an error to a
discovery that is strictly later and at most 10 positions away, the
discovery chosen is the first (least-sequence) qualifying one, an error at
sequence 5 with discoveries at 8 and 20 yields exactly the pair (5, 8),
and two distinct errors can bind to the same discovery. -/
theorem claim_C7_error_resolution :
    (∀ (errors discoveries : List (Nat × String)) (q : Nat × String × Nat × String),
        q ∈ find_pairs errors discoveries →
          (q.1, q.2.1) ∈ errors ∧ (q.2.2.1, q.2.2.2) ∈ discoveries
            ∧ q.1 < q.2.2.1 ∧ q.2.2.1 ≤ q.1 + 10)
      ∧ (∀ (errors discoveries : List (Nat × String)) (q : Nat × String × Nat × String),
          discoveries.Pairwise (fun a b => a.1 < b.1) →
          q ∈ find_pairs errors discoveries →
          ∀ x ∈ discoveries, q.1 < x.1 → x.1 ≤ q.1 + 10 → q.2.2.1 ≤ x.1)
      ∧ find_pairs [(5, "err")] [(8, "d8"), (20, "d20")] = [(5, "err", 8, "d8")]
      ∧ find_pairs [(3, "e1"), (5, "e2")] [(8, "d")] = [(3, "e1", 8, "d"), (5, "e2", 8, "d")] := by
  refine ⟨?_, ?_, by decide, by decide⟩
  · intro errors discoveries q hq
    rw [find_pairs_eq] at hq
    obtain ⟨e, he, hsome⟩ := List.mem_filterMap.mp hq
    cases hfind : discoveries.find?
        (fun d => decide (0 < d.1 - e.1) && decide (d.1 - e.1 ≤ 10)) with
    | none =>
      rw [hfind] at hsome
      simp at hsome
    | some d =>
      rw [hfind, Option.map_some'] at hsome
      have hq2 := Option.some.inj hsome
      subst hq2
      have hpd := List.find?_some hfind
      simp only [Bool.and_eq_true, decide_eq_true_eq] at hpd
      refine ⟨by simpa using he, by simpa using List.mem_of_find?_eq_some hfind, ?_, ?_⟩
      · show e.1 < d.1
        omega
      · show d.1 ≤ e.1 + 10
        omega
  · intro errors discoveries q hs hq x hx h1 h2
    rw [find_pairs_eq] at hq
    obtain ⟨e, he, hsome⟩ := List.mem_filterMap.mp hq
    cases hfind : discoveries.find?
        (fun d => decide (0 < d.1 - e.1) && decide (d.1 - e.1 ≤ 10)) with
    | none =>
      rw [hfind] at hsome
      simp at hsome
    | some d =>
      rw [hfind, Option.map_some'] at hsome
      have hq2 := Option.some.inj hsome
      subst hq2
      have hmin := find?_min_of_sorted hs hfind x hx
      simp only [Bool.and_eq_true, decide_eq_true_eq] at hmin
      have h1b : e.1 < x.1 := h1
      have h2b : x.1 ≤ e.1 + 10 := h2
      show d.1 ≤ x.1
      exact hmin (by omega)

theorem claim_C7_witness :
    ((5 : Nat), "err") ∈ [((5 : Nat), "err")]
      ∧ ((8 : Nat), "d8") ∈ [((8 : Nat), "d8"), (20, "d20")]
      ∧ (5 : Nat) < 8 ∧ (8 : Nat) ≤ 5 + 10 :=
  claim_C7_error_resolution.1 [(5, "err")] [(8, "d8"), (20, "d20")]
    (5, "err", 8, "d8") (by decide)

/-! ## The session selections of the extractors (claim C3) -/

/-- C3 as stated is false: extractor C has no struggle-score condition.
In `lowScoreStore` the (counter-consistent) session has struggle score 2,
yet strategy C's selection returns it. -/
theorem claim_C3_counterexample :
    ¬ ∀ s ∈ select_correction_sessions lowScoreStore "p", (5 : Rat) < s.struggle_score := by
  decide

/-- C3 amended: extractors A, B and D select only sessions of the given
project with struggle_score above 5 and intent among execution,
continuation and debug, at most 10 of them; extractor C instead selects
only sessions of the project with correction_count > 0 — with no
struggle-score condition — ranked by correction count descending, at most
10 of them. -/
theorem claim_C3_amended :
    (∀ (db : Store) (project : String) (s : SessionRec),
        s ∈ select_struggle_sessions db project →
          s.project = project ∧ (5 : Rat) < s.struggle_score
            ∧ (s.intent = "execution" ∨ s.intent = "continuation" ∨ s.intent = "debug"))
      ∧ (∀ (db : Store) (project : String),
          (select_struggle_sessions db project).length ≤ 10)
      ∧ (∀ (db : Store) (project : String) (s : SessionRec),
          s ∈ select_correction_sessions db project →
            s.project = project ∧ 0 < s.correction_count)
      ∧ (∀ (db : Store) (project : String),
          (select_correction_sessions db project).length ≤ 10)
      ∧ (∀ (db : Store) (project : String),
          (select_correction_sessions db project).Pairwise
            (fun a b => b.correction_count ≤ a.correction_count)) := by
  refine ⟨?_, ?_, ?_, ?_, ?_⟩
  · intro db project s hs
    have hs2 : s ∈ sortOrd (fun a b => decide (b.struggle_score ≤ a.struggle_score))
        (db.sessions.filter (fun s =>
          s.project == project && decide ((5 : Rat) < s.struggle_score) && intent_filter s)) :=
      (List.take_sublist 10 _).subset hs
    have hs3 := (List.mem_filter.mp (mem_sortOrd.mp hs2)).2
    simp only [intent_filter, Bool.and_eq_true, beq_iff_eq, decide_eq_true_eq,
      Bool.or_eq_true] at hs3
    exact ⟨hs3.1.1, hs3.1.2, or_assoc.mp hs3.2⟩
  · intro db project
    simp only [select_struggle_sessions, List.length_take]
    exact Nat.min_le_left _ _
  · intro db project s hs
    have hs2 : s ∈ sortOrd (fun a b => decide (b.correction_count ≤ a.correction_count))
        (db.sessions.filter (fun s =>
          s.project == project && decide (0 < s.correction_count))) :=
      (List.take_sublist 10 _).subset hs
    have hs3 := (List.mem_filter.mp (mem_sortOrd.mp hs2)).2
    simp only [Bool.and_eq_true, beq_iff_eq, decide_eq_true_eq] at hs3
    exact hs3
  · intro db project
    simp only [select_correction_sessions, List.length_take]
    exact Nat.min_le_left _ _
  · intro db project
    have hpw := @pairwise_sortOrd SessionRec
      (fun a b : SessionRec => decide (b.correction_count ≤ a.correction_count))
      (fun a b c hab hbc => by
        simp only [decide_eq_true_eq] at *
        exact Nat.le_trans hbc hab)
      (fun a b => by
        simp only [decide_eq_true_eq]
        exact Nat.le_total b.correction_count a.correction_count)
      (db.sessions.filter (fun s => s.project == project && decide (0 < s.correction_count)))
    have hpw2 := List.Pairwise.sublist (List.take_sublist 10 _) hpw
    exact hpw2.imp (fun h => by simpa using h)

theorem claim_C3_witness :
    lowScoreRow.project = "p" ∧ 0 < lowScoreRow.correction_count :=
  claim_C3_amended.2.2.1 lowScoreStore "p" lowScoreRow (by decide)

/-! ## The argmax fold of detect_intent (claim C5) -/

theorem foldMax_first {α : Type} (f : α → Nat) :
    ∀ (xs : List α) (x : α),
      ∃ pre post,
        x :: xs = pre ++ foldMax f x xs :: post
          ∧ (∀ y ∈ pre, f y < f (foldMax f x xs))
          ∧ (∀ y ∈ post, f y ≤ f (foldMax f x xs)) := by
  intro xs
  induction xs with
  | nil =>
    intro x
    exact ⟨[], [], rfl, by simp, by simp⟩
  | cons c cs ih =>
    intro x
    have hstep : foldMax f x (c :: cs) = foldMax f (if f x < f c then c else x) cs := rfl
    by_cases hc : f x < f c
    · rw [hstep, if_pos hc]
      obtain ⟨pre, post, heq, hpre, hpost⟩ := ih c
      have hcres : f c ≤ f (foldMax f c cs) := by
        have hcmem : c ∈ pre ++ foldMax f c cs :: post := by
          rw [← heq]
          exact List.mem_cons_self _ _
        rcases List.mem_append.mp hcmem with h | h
        · exact Nat.le_of_lt (hpre c h)
        · rcases List.mem_cons.mp h with heq2 | h2
          · exact Nat.le_of_eq (congrArg f heq2)
          · exact hpost c h2
      refine ⟨x :: pre, post, ?_, ?_, hpost⟩
      · rw [List.cons_append, ← heq]
      · intro y hy
        rcases List.mem_cons.mp hy with hyx | hy2
        · rw [congrArg f hyx]
          exact Nat.lt_of_lt_of_le hc hcres
        · exact hpre y hy2
    · rw [hstep, if_neg hc]
      obtain ⟨pre, post, heq, hpre, hpost⟩ := ih x
      have hcx : f c ≤ f x := Nat.le_of_not_lt hc
      cases pre with
      | nil =>
        simp only [List.nil_append] at heq
        injection heq with h1 h2
        refine ⟨[], c :: post, ?_, by simp, ?_⟩
        · simp only [List.nil_append]
          rw [← h1, h2]
        · intro y hy
          rcases List.mem_cons.mp hy with hyc | hy2
          · rw [congrArg f hyc, ← congrArg f h1]
            exact hcx
          · exact hpost y hy2
      | cons p ps =>
        simp only [List.cons_append] at heq
        injection heq with h1 h2
        refine ⟨x :: c :: ps, post, ?_, ?_, hpost⟩
        · simp only [List.cons_append]
          conv_lhs => rw [h2]
        · intro y hy
          have hpres : f p < f (foldMax f x cs) := hpre p (List.mem_cons_self _ _)
          rcases List.mem_cons.mp hy with hyx | hy2
          · rw [congrArg f hyx, congrArg f h1]
            exact hpres
          · rcases List.mem_cons.mp hy2 with hyc | hy3
            · rw [congrArg f hyc]
              exact Nat.lt_of_le_of_lt hcx (by rw [congrArg f h1]; exact hpres)
            · exact hpre y (List.mem_cons_of_mem p hy3)

/-- C5. Intent detection: the special-cased literal/prefix routes take
precedence; otherwise the presence-based scores are ranked and the first
maximal intent in enumeration order is returned, "unknown" when no intent
scores above zero; "warmup" maps to startup (whose struggle score is
always 0), "please implement the login fix" to execution, and "can you
help me understand how the cache works" to research. -/
theorem claim_C5_intent_detection :
    detect_intent "warmup" = "startup"
      ∧ (∀ s : SessionRec, compute_struggle_score { s with intent := "startup" } = 0)
      ∧ detect_intent "please implement the login fix" = "execution"
      ∧ detect_intent "can you help me understand how the cache works" = "research"
      ∧ (∀ fm r : String, fm ≠ "" → detect_special (normText fm) = some r →
          detect_intent fm = r)
      ∧ (∀ fm : String, fm ≠ "" → detect_special (normText fm) = none →
          intent_scores (normText fm) = [] → detect_intent fm = "unknown")
      ∧ (∀ (fm : String) (x : String × Nat) (xs : List (String × Nat)),
          fm ≠ "" → detect_special (normText fm) = none →
          intent_scores (normText fm) = x :: xs →
          ∃ (n : Nat) (pre post : List (String × Nat)),
            intent_scores (normText fm) = pre ++ (detect_intent fm, n) :: post
              ∧ (∀ y ∈ pre, y.2 < n) ∧ (∀ y ∈ post, y.2 ≤ n)) := by
  refine ⟨by decide, ?_, by decide, by decide, ?_, ?_, ?_⟩
  · intro s
    simp [compute_struggle_score]
  · intro fm r h1 h2
    simp only [detect_intent, if_neg h1, h2]
  · intro fm h1 h2 h3
    simp only [detect_intent, if_neg h1, h2, h3]
  · intro fm x xs h1 h2 h3
    have hdi : detect_intent fm = (foldMax (fun p : String × Nat => p.2) x xs).1 := by
      simp only [detect_intent, if_neg h1, h2, h3]
      rfl
    obtain ⟨pre, post, heq, hpre, hpost⟩ := foldMax_first (fun p : String × Nat => p.2) xs x
    refine ⟨(foldMax (fun p : String × Nat => p.2) x xs).2, pre, post, ?_, hpre, hpost⟩
    rw [h3, hdi, Prod.mk.eta]
    exact heq

theorem claim_C5_witness :
    detect_intent "<command-message>resume work" = "execution"
      ∧ detect_intent "zzz" = "unknown" :=
  ⟨claim_C5_intent_detection.2.2.2.2.1 "<command-message>resume work" "execution"
      (by decide) (by decide),
   claim_C5_intent_detection.2.2.2.2.2.1 "zzz" (by decide) (by decide) (by decide)⟩

/-! ## Lemmas about the tool-repetition scan (strategy D, claim C8) -/

theorem repChain_rest_sublist (p : String) :
    ∀ l : List MsgRow, (repChain p l).2.Sublist l := by
  intro l
  induction l with
  | nil => simp [repChain]
  | cons m ms ih =>
    simp only [repChain]
    split
    · exact ih.cons m
    · split
      · exact ih.cons m
      · exact List.Sublist.refl _

theorem repChain_mem (p : String) :
    ∀ (l : List MsgRow) (x : Nat × String), x ∈ (repChain p l).1 →
      ∃ row ∈ l, row.seq = x.1 ∧ row.content_preview = x.2
        ∧ (row.tool_names.getD []).head? = some p := by
  intro l
  induction l with
  | nil =>
    intro x hx
    simp [repChain] at hx
  | cons m ms ih =>
    intro x hx
    simp only [repChain] at hx
    split at hx
    · obtain ⟨row, hrow, hprops⟩ := ih x hx
      exact ⟨row, List.mem_cons_of_mem m hrow, hprops⟩
    next t rest htn =>
      split at hx
      next hteq =>
        rcases List.mem_cons.mp hx with rfl | hx2
        · refine ⟨m, List.mem_cons_self _ _, rfl, rfl, ?_⟩
          rw [htn]
          simp [hteq]
        · obtain ⟨row, hrow, hprops⟩ := ih x hx2
          exact ⟨row, List.mem_cons_of_mem m hrow, hprops⟩
      next hteq =>
        simp at hx

theorem scanGo_min_length (mr : Nat) :
    ∀ (fuel : Nat) (l : List MsgRow) (run : String × List (Nat × String)),
      run ∈ scanGo mr fuel l → mr ≤ run.2.length := by
  intro fuel
  induction fuel with
  | zero =>
    intro l run h
    simp [scanGo] at h
  | succ fuel ih =>
    intro l run h
    cases l with
    | nil => simp [scanGo] at h
    | cons m ms =>
      simp only [scanGo] at h
      split at h
      · exact ih ms run h
      next t rest htn =>
        rcases List.mem_append.mp h with h1 | h2
        · split at h1
          next hlen =>
            rcases List.mem_singleton.mp h1 with rfl
            exact hlen
          next hlen =>
            simp at h1
        · exact ih _ run h2

theorem scanGo_anchor (mr : Nat) :
    ∀ (fuel : Nat) (l : List MsgRow) (run : String × List (Nat × String)),
      run ∈ scanGo mr fuel l →
      ∀ x ∈ run.2, ∃ row ∈ l, row.seq = x.1 ∧ row.content_preview = x.2
        ∧ (row.tool_names.getD []).head? = some run.1 := by
  intro fuel
  induction fuel with
  | zero =>
    intro l run h
    simp [scanGo] at h
  | succ fuel ih =>
    intro l run h
    cases l with
    | nil => simp [scanGo] at h
    | cons m ms =>
      simp only [scanGo] at h
      split at h
      · intro x hx
        obtain ⟨row, hrow, hprops⟩ := ih ms run h x hx
        exact ⟨row, List.mem_cons_of_mem m hrow, hprops⟩
      next t rest htn =>
        rcases List.mem_append.mp h with h1 | h2
        · split at h1
          next hlen =>
            rcases List.mem_singleton.mp h1 with rfl
            intro x hx
            rcases List.mem_cons.mp hx with rfl | hx2
            · refine ⟨m, List.mem_cons_self _ _, rfl, rfl, ?_⟩
              rw [htn]
              rfl
            · obtain ⟨row, hrow, hprops⟩ := repChain_mem t ms x hx2
              exact ⟨row, List.mem_cons_of_mem m hrow, hprops⟩
          next hlen =>
            simp at h1
        · intro x hx
          obtain ⟨row, hrow, hprops⟩ := ih (repChain t ms).2 run h2 x hx
          exact ⟨row, List.mem_cons_of_mem m ((repChain_rest_sublist t ms).subset hrow), hprops⟩

/-- C8. The tool-repetition scan: every emitted run has at least
min_repeats members, every member of a run comes from a scanned message
row whose first tool is the run's anchor tool, and on per-message first
tools A, A, none, A, B, B, B with min_repeats 3 the extractor emits
exactly one run of A (length 3 — the zero-tool message does not break it)
and one run of B (length 3). -/
theorem claim_C8_tool_repetition :
    (∀ (mr : Nat) (msgs : List MsgRow) (run : String × List (Nat × String)),
        run ∈ scan_repetitions mr msgs → mr ≤ run.2.length)
      ∧ (∀ (mr : Nat) (msgs : List MsgRow) (run : String × List (Nat × String)),
          run ∈ scan_repetitions mr msgs →
          ∀ x ∈ run.2, ∃ row ∈ msgs, row.seq = x.1 ∧ row.content_preview = x.2
            ∧ (row.tool_names.getD []).head? = some run.1)
      ∧ ((scan_repetitions 3 (session_messages toolStore "claude-code:d1"
            (fun m => decide (0 < m.tool_call_count)))).map
          (fun run => (run.1, run.2.map Prod.fst)) = [("A", [0, 1, 3]), ("B", [4, 5, 6])])
      ∧ ((strategy_d_tool_repetition toolStore "p" 3).map (fun sr =>
          sr.2.map (fun run => (run.1, run.2.map Prod.fst)))
          = [[("A", [0, 1, 3]), ("B", [4, 5, 6])]]) := by
  refine ⟨?_, ?_, by decide, by decide⟩
  · intro mr msgs run h
    exact scanGo_min_length mr msgs.length msgs run h
  · intro mr msgs run h
    exact scanGo_anchor mr msgs.length msgs run h

theorem claim_C8_witness :
    3 ≤ [((0 : Nat), ""), (1, ""), (3, "")].length :=
  claim_C8_tool_repetition.1 3
    (session_messages toolStore "claude-code:d1" (fun m => decide (0 < m.tool_call_count)))
    ("A", [(0, ""), (1, ""), (3, "")]) (by decide)

end SessionIntel
